import Mathlib

/-!
# goroute/logger: request-logging middleware

A shallow embedding of `logger.go`.  Go strings and byte buffers are Lean
`String`s, Go `int` is `Int`, an `error` value is its message, and the calls the
middleware makes on its collaborators (the next handler, `c.Error`, the output
writer, the buffer pool) are recorded in an explicit state.
-/

namespace Logger

/-! ## Constants and types of `logger.go` -/

def colorRed : Int := 31
def colorYellow : Int := 33
def colorBlue : Int := 36
def colorGray : Int := 37

/-- FormatType defines logs format mode (a Go string type). -/
abbrev FormatType := String

def FormatTypeText : FormatType := "text"
def FormatTypeJSON : FormatType := "json"

/-- A non-nil Go `error`; `msg` is what its `Error()` method returns, which is
also what the verb `%v` prints for it. -/
structure GoError where
  msg : String
deriving DecidableEq, Repr

/-! ## The library calls used by the middleware -/

/-- The verb `%d` of package fmt applied to an `int`: decimal digits, with a
leading minus sign for a negative value. -/
def fmtD (n : Int) : String := toString n

/-- The verb `%v` of package fmt applied to a non-nil error. -/
def fmtV (e : GoError) : String := e.msg

/-! ## Classification (lines 116-136 of `logger.go`) -/

/-- The pair `(errMsg, color)` computed from the handler's error and the
response status. -/
def classify (err : Option GoError) (status : Int) : String × Int :=
  match err, decide (status ≥ 500) with
  | some e, true => (fmtV e, colorRed)
  | _, _ =>
    if status ≥ 200 ∧ status < 300 then ("", colorBlue)
    else if status ≥ 500 then ("", colorRed)
    else if status ≥ 300 ∧ status < 500 then ("", colorYellow)
    else ("", colorGray)

/-! ## Text format (lines 138-151) -/

/-- The bytes appended to the buffer in text mode, trailing newline included. -/
def formatText (isTerminal : Bool) (color status : Int)
    (method path latency errMsg : String) : String :=
  if isTerminal then
    let b := "\x1b[" ++ fmtD color ++ "m" ++ fmtD status ++ "\x1b[0m method=" ++ method
      ++ " path=" ++ path ++ " latency=" ++ latency
    let b := if errMsg ≠ "" then b ++ " \x1b[" ++ fmtD color ++ "merr=" ++ errMsg ++ "\x1b[0m" else b
    b ++ "\n"
  else
    let b := fmtD status ++ " method=" ++ method ++ " path=" ++ path ++ " latency=" ++ latency
      ++ " " ++ errMsg
    let b := if errMsg ≠ "" then b ++ " err=" ++ errMsg else b
    b ++ "\n"

/-! ## Rendering of the latency: `time.Duration.String` -/

/-- The loop of `time.fmtFrac`: `prec` times, take the last decimal digit of `v`
and put it in front of `buf` once a non-zero digit has been seen. -/
def fmtFracLoop : Nat → List Char → Nat → Bool → List Char × Nat × Bool
  | 0, buf, v, print => (buf, v, print)
  | n + 1, buf, v, print =>
    let digit := v % 10
    let print := print || digit != 0
    let buf := if print then Nat.digitChar digit :: buf else buf
    fmtFracLoop n buf (v / 10) print

/-- The function `time.fmtFrac`: the fraction of `v / 10^prec` without trailing
zeros (and without the point when it is zero) in front of `buf`, and
`v / 10^prec`. -/
def fmtFrac (buf : List Char) (v prec : Nat) : List Char × Nat :=
  let r := fmtFracLoop prec buf v false
  (if r.2.2 then '.' :: r.1 else r.1, r.2.1)

/-- The loop `for v > 0` of `time.fmtInt`; `fuel` bounds the number of rounds
and `v` rounds always suffice. -/
def fmtIntLoop : Nat → Nat → List Char → List Char
  | 0, _, buf => buf
  | fuel + 1, v, buf =>
    if v = 0 then buf else fmtIntLoop fuel (v / 10) (Nat.digitChar (v % 10) :: buf)

/-- The function `time.fmtInt`: the decimal digits of `v` in front of `buf`. -/
def fmtInt (buf : List Char) (v : Nat) : List Char :=
  if v = 0 then '0' :: buf else fmtIntLoop v v buf

/-- The method `time.Duration.String` on a duration of `d` nanoseconds: the
buffer is filled from its end, so every piece is put in front of what is
already there. -/
def durationString (d : Int) : String :=
  let u := d.natAbs
  let body : List Char :=
    if u < 1000000000 then
      if u = 0 then ['0', 's']
      else if u < 1000 then
        let r := fmtFrac ['n', 's'] u 0
        fmtInt r.1 r.2
      else if u < 1000000 then
        let r := fmtFrac ['µ', 's'] u 3
        fmtInt r.1 r.2
      else
        let r := fmtFrac ['m', 's'] u 6
        fmtInt r.1 r.2
    else
      let r := fmtFrac ['s'] u 9
      let u := r.2
      let buf := fmtInt r.1 (u % 60)
      let u := u / 60
      if u > 0 then
        let buf := fmtInt ('m' :: buf) (u % 60)
        let u := u / 60
        if u > 0 then fmtInt ('h' :: buf) u else buf
      else buf
  String.mk (if d < 0 then '-' :: body else body)

/-! ## JSON format (lines 152-168): `encoding/json` -/

/-- What `encoding/json` (Go 1.22 and later) writes for one character of a
string when HTML escaping is on, as it is for a `json.Encoder`: the quote and
the backslash after a backslash, the short forms for backspace, form feed,
newline, carriage return and tab, `\u00XX` for the other control characters
and for `<`, `>`, `&`, `\u2028` and `\u2029`, any other character as it is. -/
def jsonEscapeChar (c : Char) : List Char :=
  if c = Char.ofNat 34 ∨ c = Char.ofNat 92 then [Char.ofNat 92, c]
  else if c = Char.ofNat 8 then [Char.ofNat 92, 'b']
  else if c = Char.ofNat 12 then [Char.ofNat 92, 'f']
  else if c = Char.ofNat 10 then [Char.ofNat 92, 'n']
  else if c = Char.ofNat 13 then [Char.ofNat 92, 'r']
  else if c = Char.ofNat 9 then [Char.ofNat 92, 't']
  else if c.toNat < 32 ∨ c = '<' ∨ c = '>' ∨ c = '&' then
    [Char.ofNat 92, 'u', '0', '0', Nat.digitChar (c.toNat / 16), Nat.digitChar (c.toNat % 16)]
  else if c.toNat = 8232 ∨ c.toNat = 8233 then
    [Char.ofNat 92, 'u', '2', '0', '2', Nat.digitChar (c.toNat % 16)]
  else [c]

/-- A Go string as a JSON string literal. -/
def jsonString (s : String) : String :=
  "\"" ++ String.mk (s.data.flatMap jsonEscapeChar) ++ "\""

/-- The bytes `json.Encoder.Encode` appends to the buffer for the anonymous
struct of line 154: the fields in declaration order, `error` left out when
empty (`omitempty`), and the newline the encoder adds. -/
def formatJSON (status : Int) (method path latency errMsg : String) : String :=
  let b := "\x7b\"status\":" ++ fmtD status ++ ",\"method\":" ++ jsonString method
    ++ ",\"path\":" ++ jsonString path ++ ",\"latency\":" ++ jsonString latency
  let b := if errMsg ≠ "" then b ++ ",\"error\":" ++ jsonString errMsg else b
  b ++ "\x7d\n"

/-! ## The collaborators: context, handler, writer -/

/-- What the middleware reads through `route.Context`, kept with the clock that
`time.Now` reads: the handler and `c.Error` may change any of it. `Method` is
`c.Request().Method`, `Path` is `c.Request().URL.Path`, `Status` is
`c.Response().Status`, `now` the clock in nanoseconds. -/
structure Context where
  Method : String
  Path : String
  Status : Int
  now : Int
deriving DecidableEq, Repr

/-- A `route.HandlerFunc`: the error it returns (`none` is nil) and the context
it leaves behind. -/
abbrev HandlerFunc := Context → Option GoError × Context

/-- A `route.Skipper`. -/
abbrev SkipperFunc := Context → Bool

/-- The skipper `route.DefaultSkipper`, which skips nothing. -/
def DefaultSkipper : SkipperFunc := fun _ => false

/-- An `io.Writer` by identity: the standard error of the process, or a buffer
owned by the caller. -/
inductive Writer where
  | Stderr
  | Buffer (id : Nat)
deriving DecidableEq, Repr

/-- Options defines the options for logger middleware. The buffer pool is held
in the run state, see `State`. -/
structure Options where
  Skipper : SkipperFunc
  Output : Writer
  Format : FormatType
  isTerminal : Bool

/-- Option defines option func (`Option` in the source). -/
abbrev OptionFunc := Options → Options

/-- GetDefaultOptions returns default options. -/
def GetDefaultOptions : Options :=
  { Skipper := DefaultSkipper, Output := Writer.Stderr, Format := FormatTypeText,
    isTerminal := false }

/-- Skipper sets skipper option. -/
def Skipper (skipper : SkipperFunc) : OptionFunc := fun o => { o with Skipper := skipper }

/-- Format sets logs format option. -/
def Format (format : FormatType) : OptionFunc := fun o => { o with Format := format }

/-- Output sets logs output. -/
def Output (w : Writer) : OptionFunc := fun o => { o with Output := w }

/-- The options as resolved by the first lines of `New` (82-94): the defaults,
the options applied in order, and the terminal flag, which is
`terminal.IsTerminal` on the standard output of the process. -/
def newOptions (stdoutIsTerminal : Bool) (options : List OptionFunc) : Options :=
  let opts := options.foldl (fun o opt => opt o) GetDefaultOptions
  { opts with isTerminal := stdoutIsTerminal }

/-- A call made by the middleware on one of its collaborators. -/
inductive Event where
  | next
  | cError (e : GoError)
  | write (w : Writer) (p : String)
deriving DecidableEq, Repr

/-- The state a request runs in: the context, the idle buffers of
`opts.bufferPool` (each by its contents) and the calls made so far, oldest
first. -/
structure State where
  c : Context
  pool : List String
  calls : List Event
deriving DecidableEq, Repr

/-- The method `Reset` of `bytes.Buffer`: the buffer becomes empty. -/
def bufReset (_b : String) : String := ""

/-- The bytes appended to the buffer for one request (lines 116-168):
classification, then the text or the JSON rendering. -/
def logLine (opts : Options) (err : Option GoError) (c : Context) (latency : String) : String :=
  let cl := classify err c.Status
  let errMsg := cl.1
  let color := cl.2
  if opts.Format = FormatTypeText then
    formatText opts.isTerminal color c.Status c.Method c.Path latency errMsg
  else
    formatJSON c.Status c.Method c.Path latency errMsg

/-- The closure returned by `New` (lines 96-172). `cError` is the method
`c.Error` of the context. The result is the error returned to the caller.
The latency is the exact difference of the two clock readings (`Time.Sub`
saturates only at the ends of the int64 range). -/
def middleware (opts : Options) (cError : GoError → Context → Context)
    (next : HandlerFunc) (s : State) : Option GoError × State :=
  if opts.Skipper s.c then
    let r := next s.c
    (r.1, { s with c := r.2, calls := s.calls ++ [Event.next] })
  else
    let start := s.c.now
    let r := next s.c
    let err := r.1
    let calls := s.calls ++ [Event.next]
    let c := match err with
      | some e => cError e r.2
      | none => r.2
    let calls := match err with
      | some e => calls ++ [Event.cError e]
      | none => calls
    let stop := c.now
    let latency := durationString (stop - start)
    -- `bufferPool.Get()`: an idle buffer if there is one, a new one otherwise
    let b := s.pool.headD ""
    let pool := s.pool.tail
    let b := bufReset b
    let b := b ++ logLine opts err c latency
    (none, { c := c, pool := b :: pool, calls := calls ++ [Event.write opts.Output b] })

/-- New returns a middleware which logs requests. -/
def New (stdoutIsTerminal : Bool) (options : List OptionFunc)
    (cError : GoError → Context → Context) (next : HandlerFunc) (s : State) :
    Option GoError × State :=
  middleware (newOptions stdoutIsTerminal options) cError next s

/-! ## The tests of `logger_test.go` -/

/-- The handler of the tests, `c.String(status, "test")`: it sets the response
status, returns nil, and lets `dt` nanoseconds pass. -/
def statusHandler (status dt : Int) : HandlerFunc :=
  fun c => (none, { c with Status := status, now := c.now + dt })

/-- The contents of the buffer `w` after the calls: what was written to it, in
order (`buf.String()` in the tests). -/
def written (w : Writer) : List Event → String
  | [] => ""
  | Event.write w2 p :: rest => if w2 = w then p ++ written w rest else written w rest
  | _ :: rest => written w rest

/-- Whether `l` begins with `p`. -/
def startsWith : List Char → List Char → Bool
  | _, [] => true
  | [], _ :: _ => false
  | a :: l, b :: p => a == b && startsWith l p

/-- Whether `sub` occurs in `l` as a run of consecutive characters
(`strings.Contains`, which `assert.Contains` uses on strings). -/
def containsAt : List Char → List Char → Bool
  | [], sub => startsWith [] sub
  | a :: l, sub => startsWith (a :: l) sub || containsAt l sub

/-- The characters a rendered duration is made of. -/
def durationChars : List Char :=
  ['0', '1', '2', '3', '4', '5', '6', '7', '8', '9', '.', 'n', 'µ', 'm', 's', 'h', '-']

/-! ## Reading a JSON object back -/

/-- The value of a hexadecimal digit. -/
def hexVal (c : Char) : Option Nat :=
  if 48 ≤ c.toNat ∧ c.toNat ≤ 57 then some (c.toNat - 48)
  else if 97 ≤ c.toNat ∧ c.toNat ≤ 102 then some (c.toNat - 87)
  else if 65 ≤ c.toNat ∧ c.toNat ≤ 70 then some (c.toNat - 55)
  else none

/-- The character that a backslash followed by `c` stands for in a JSON string,
for the two-character escapes. -/
def unescapeShort (c : Char) : Option Char :=
  if c = Char.ofNat 34 then some (Char.ofNat 34)
  else if c = Char.ofNat 92 then some (Char.ofNat 92)
  else if c = '/' then some '/'
  else if c = 'b' then some (Char.ofNat 8)
  else if c = 'f' then some (Char.ofNat 12)
  else if c = 'n' then some (Char.ofNat 10)
  else if c = 'r' then some (Char.ofNat 13)
  else if c = 't' then some (Char.ofNat 9)
  else none

/-- Where the reader of a JSON string stands: between characters, after a
backslash, or inside `\u` with `k` hexadecimal digits still to read and the
value `acc` of the digits read. -/
inductive ReadState where
  | normal
  | escape
  | hex (acc k : Nat)

/-- The reader of a JSON string, started after the opening quote: the
characters the string stands for and what follows the closing quote. -/
def readStr : ReadState → List Char → Option (List Char × List Char)
  | _, [] => none
  | ReadState.normal, c :: rest =>
    if c = Char.ofNat 34 then some ([], rest)
    else if c = Char.ofNat 92 then readStr ReadState.escape rest
    else if c.toNat < 32 then none
    else (readStr ReadState.normal rest).map fun r => (c :: r.1, r.2)
  | ReadState.escape, c :: rest =>
    if c = 'u' then readStr (ReadState.hex 0 3) rest
    else match unescapeShort c with
      | some ch => (readStr ReadState.normal rest).map fun r => (ch :: r.1, r.2)
      | none => none
  | ReadState.hex acc k, c :: rest =>
    match hexVal c with
    | none => none
    | some d =>
      match k with
      | 0 =>
        if Nat.isValidChar (acc * 16 + d) then
          (readStr ReadState.normal rest).map fun r => (Char.ofNat (acc * 16 + d) :: r.1, r.2)
        else none
      | k + 1 => readStr (ReadState.hex (acc * 16 + d) k) rest

/-- The reader of a JSON string after its opening quote. -/
def readString (l : List Char) : Option (List Char × List Char) :=
  readStr ReadState.normal l

/-- The reader of a run of decimal digits: the number read, carried in `acc`,
and what follows the digits. -/
def readDigits : Nat → List Char → Nat × List Char
  | acc, [] => (acc, [])
  | acc, c :: rest =>
    if c.isDigit then readDigits (acc * 10 + (c.toNat - 48)) rest else (acc, c :: rest)

/-- The reader of a JSON integer: an optional minus sign and at least one
digit. -/
def readInt (l : List Char) : Option (Int × List Char) :=
  match l with
  | [] => none
  | c :: rest =>
    if c = '-' then
      match rest with
      | [] => none
      | d :: _ => if d.isDigit then some (-((readDigits 0 rest).1 : Int), (readDigits 0 rest).2)
        else none
    else if c.isDigit then some (((readDigits 0 l).1 : Int), (readDigits 0 l).2)
    else none

/-- A JSON value of the kinds the log line holds: an integer or a string. -/
inductive JValue where
  | num (n : Int)
  | str (s : String)
deriving DecidableEq, Repr

/-- The reader of a JSON value. -/
def readValue (l : List Char) : Option (JValue × List Char) :=
  match l with
  | [] => none
  | c :: rest =>
    if c = Char.ofNat 34 then (readString rest).map fun r => (JValue.str (String.mk r.1), r.2)
    else (readInt l).map fun r => (JValue.num r.1, r.2)

/-- The reader of one member of an object, `"key":value`. -/
def readMember (l : List Char) : Option ((String × JValue) × List Char) :=
  match l with
  | [] => none
  | c :: rest =>
    if c = Char.ofNat 34 then
      match readString rest with
      | some (k, c2 :: rest2) =>
        if c2 = ':' then (readValue rest2).map fun r => ((String.mk k, r.1), r.2) else none
      | _ => none
    else none

/-- The reader of the members of an object up to its closing brace; `fuel`
bounds the number of members. -/
def readMembers : Nat → List Char → Option (List (String × JValue) × List Char)
  | 0, _ => none
  | fuel + 1, l =>
    match readMember l with
    | some (m, c :: rest) =>
      if c = ',' then (readMembers fuel rest).map fun r => (m :: r.1, r.2)
      else if c = Char.ofNat 125 then some ([m], rest)
      else none
    | _ => none

/-- The decoder of a line holding one JSON object in the compact form that
`encoding/json` writes, followed by a newline: the members in the order they
are written. -/
def parseObject (s : String) : Option (List (String × JValue)) :=
  match s.data with
  | [] => none
  | c :: rest =>
    if c = Char.ofNat 123 then
      if rest = [Char.ofNat 125, Char.ofNat 10] then some []
      else match readMembers rest.length rest with
        | some (ms, tail) => if tail = [Char.ofNat 10] then some ms else none
        | none => none
    else none

/-- The bytes `encoding/json` writes for a value. -/
def JValue.encode : JValue → String
  | JValue.num n => fmtD n
  | JValue.str s => jsonString s

/-- The members of a JSON object as `encoding/json` writes them: `"key":value`,
separated by commas. -/
def encodeMembers : List (String × JValue) → String
  | [] => ""
  | [kv] => jsonString kv.1 ++ ":" ++ kv.2.encode
  | kv :: kv2 :: rest =>
    jsonString kv.1 ++ ":" ++ kv.2.encode ++ "," ++ encodeMembers (kv2 :: rest)

/-- A JSON object as `json.Encoder.Encode` writes it, with the newline it adds. -/
def encodeObject (fields : List (String × JValue)) : String :=
  "\x7b" ++ encodeMembers fields ++ "\x7d\n"

/-- What follows a number in the line does not begin with a digit. -/
def noDigitAhead (rest : List Char) : Prop :=
  match rest with
  | [] => True
  | c :: _ => c.isDigit = false

/-! ## Handlers and skippers of the example and of the counterexamples -/

/-- The handler of `/err` in `example/main.go`: `return errors.New(msg)`. -/
def errorHandler (msg : String) : HandlerFunc :=
  fun c => (some ⟨msg⟩, c)

/-- A skipper that skips every request. -/
def skipAll : SkipperFunc := fun _ => true

/-- A `c.Error` that sets the response status to `status`, as the error handler
of the router does with 500 for a plain error. -/
def cErrorStatus (status : Int) : GoError → Context → Context :=
  fun _ c => { c with Status := status }

/-- The `write` calls among the calls, in order: the writer and the bytes of
each. -/
def writes : List Event → List (Writer × String)
  | [] => []
  | Event.write w p :: rest => (w, p) :: writes rest
  | _ :: rest => writes rest

/-- The errors passed to `c.Error` among the calls, in order. -/
def errorsReported : List Event → List GoError
  | [] => []
  | Event.cError e :: rest => e :: errorsReported rest
  | _ :: rest => errorsReported rest

/-- The number of calls of the next handler among the calls. -/
def nextCount : List Event → Nat
  | [] => 0
  | Event.next :: rest => nextCount rest + 1
  | _ :: rest => nextCount rest

/-! ## Configuration resolution as the specification words it -/

/-- An option as a caller writes it: `Skipper(f)`, `Format(f)` or `Output(w)`. -/
inductive OptionArg where
  | skipper (f : SkipperFunc)
  | format (f : FormatType)
  | output (w : Writer)

/-- The option func an option stands for. -/
def OptionArg.toFunc : OptionArg → OptionFunc
  | OptionArg.skipper f => Skipper f
  | OptionArg.format f => Format f
  | OptionArg.output w => Output w

/-- The specification's resolved format: that of the last `Format` option of
the list, Text when there is none. -/
def specFormat (l : List OptionArg) : FormatType :=
  ((l.filterMap fun o => match o with
    | OptionArg.format f => some f
    | _ => none).getLast?).getD FormatTypeText

/-- The specification's resolved output: that of the last `Output` option of
the list, the standard error when there is none. -/
def specOutput (l : List OptionArg) : Writer :=
  ((l.filterMap fun o => match o with
    | OptionArg.output w => some w
    | _ => none).getLast?).getD Writer.Stderr

/-- The specification's resolved skipper: that of the last `Skipper` option of
the list, the one that skips nothing when there is none. -/
def specSkipper (l : List OptionArg) : SkipperFunc :=
  ((l.filterMap fun o => match o with
    | OptionArg.skipper f => some f
    | _ => none).getLast?).getD DefaultSkipper

/-! ## A sequence of requests through one middleware -/

/-- The requests, each given by its context and its handler, run one after the
other through the same middleware, which keeps its buffer pool from one
request to the next; the result lists the calls made for each request. -/
def serve (opts : Options) (cError : GoError → Context → Context) :
    List (Context × HandlerFunc) → List String → List (List Event)
  | [], _ => []
  | q :: rest, pool =>
    let r := middleware opts cError q.2 { c := q.1, pool := pool, calls := [] }
    r.2.calls :: serve opts cError rest r.2.pool

/-! ## Classification theorems -/

/-- C1: for every status of 500 or more and every non-nil handler error, the
color chosen is red (31) and the error text is the message of the error. -/
theorem classify_server_error_with_error (status : Int) (e : GoError) (h : status ≥ 500) :
    (classify (some e) status).2 = 31 ∧ (classify (some e) status).1 = e.msg := by
  have hd : decide (status ≥ 500) = true := decide_eq_true h
  simp [classify, hd, fmtV, colorRed]

theorem classify_server_error_with_error_witness :
    (500 : Int) ≥ 500 ∧
      (classify (some ⟨"something went wrong"⟩) 500).2 = 31 ∧
      (classify (some ⟨"something went wrong"⟩) 500).1 = "something went wrong" :=
  ⟨by decide, classify_server_error_with_error 500 ⟨"something went wrong"⟩ (by decide)⟩

/-- C2: for every status in [200,299] the color chosen is blue (36) and the
error text is empty, whether the handler returned an error or not. -/
theorem classify_success (status : Int) (err : Option GoError)
    (hlo : 200 ≤ status) (hhi : status ≤ 299) :
    classify err status = ("", 36) := by
  have hd : decide (status ≥ 500) = false := decide_eq_false (by omega)
  have h1 : status ≥ 200 ∧ status < 300 := ⟨hlo, by omega⟩
  cases err <;> simp [classify, hd, h1, colorBlue]

theorem classify_success_witness :
    (200 : Int) ≤ 204 ∧ (204 : Int) ≤ 299 ∧ classify (some ⟨"late"⟩) 204 = ("", 36) :=
  ⟨by decide, by decide, classify_success 204 (some ⟨"late"⟩) (by decide) (by decide)⟩

/-- C3: for every status in [300,499] the color chosen is yellow (33) and the
error text is empty, whether the handler returned an error or not. -/
theorem classify_redirect_or_client (status : Int) (err : Option GoError)
    (hlo : 300 ≤ status) (hhi : status ≤ 499) :
    classify err status = ("", 33) := by
  have hd : decide (status ≥ 500) = false := decide_eq_false (by omega)
  have h1 : ¬ (status ≥ 200 ∧ status < 300) := by omega
  have h2 : ¬ (status ≥ 500) := by omega
  have h3 : status ≥ 300 ∧ status < 500 := ⟨hlo, by omega⟩
  cases err <;> simp only [classify, hd, h1, h2, h3, colorYellow] <;> simp

theorem classify_redirect_or_client_witness :
    (300 : Int) ≤ 404 ∧ (404 : Int) ≤ 499 ∧ classify (some ⟨"not found"⟩) 404 = ("", 33) :=
  ⟨by decide, by decide,
    classify_redirect_or_client 404 (some ⟨"not found"⟩) (by decide) (by decide)⟩

/-- C4: for every status of 500 or more, when the handler returned nil, the
color chosen is red (31) and the error text is empty. -/
theorem classify_server_error_without_error (status : Int) (h : status ≥ 500) :
    classify none status = ("", 31) := by
  have h1 : ¬ (status ≥ 200 ∧ status < 300) := by omega
  simp [classify, h1, h, colorRed]

theorem classify_server_error_without_error_witness :
    (503 : Int) ≥ 500 ∧ classify none 503 = ("", 31) :=
  ⟨by decide, classify_server_error_without_error 503 (by decide)⟩

/-- C5: for every status below 200 the color chosen is gray (37) and the error
text is empty, whether the handler returned an error or not. -/
theorem classify_informational (status : Int) (err : Option GoError) (h : status < 200) :
    classify err status = ("", 37) := by
  have hd : decide (status ≥ 500) = false := decide_eq_false (by omega)
  have h1 : ¬ (status ≥ 200 ∧ status < 300) := by omega
  have h2 : ¬ (status ≥ 500) := by omega
  have h3 : ¬ (status ≥ 300 ∧ status < 500) := by omega
  cases err <;> simp only [classify, hd, h1, h2, h3, colorGray] <;> simp

theorem classify_informational_witness :
    (100 : Int) < 200 ∧ classify (some ⟨"early"⟩) 100 = ("", 37) :=
  ⟨by decide, classify_informational 100 (some ⟨"early"⟩) (by decide)⟩

/-! ## Text format theorems -/

/-- C6: when not terminal-capable, the text line is
`<status> method=<method> path=<path> latency=<latency> <errorText>`, then
` err=<errorText>` exactly when the error text is non-empty, then one newline. -/
theorem formatText_plain (color status : Int) (method path latency errMsg : String) :
    formatText false color status method path latency errMsg =
      fmtD status ++ " method=" ++ method ++ " path=" ++ path ++ " latency=" ++ latency
        ++ " " ++ errMsg ++ (if errMsg = "" then "" else " err=" ++ errMsg) ++ "\n" := by
  by_cases h : errMsg = "" <;> simp [formatText, h, String.append_assoc]

/-- C7: when terminal-capable, the text line is
`ESC[<color>m<status>ESC[0m method=<method> path=<path> latency=<latency>`, then
` ESC[<color>merr=<errorText>ESC[0m` exactly when the error text is non-empty,
then one newline. -/
theorem formatText_terminal (color status : Int) (method path latency errMsg : String) :
    formatText true color status method path latency errMsg =
      "\x1b[" ++ fmtD color ++ "m" ++ fmtD status ++ "\x1b[0m method=" ++ method
        ++ " path=" ++ path ++ " latency=" ++ latency
        ++ (if errMsg = "" then "" else " \x1b[" ++ fmtD color ++ "merr=" ++ errMsg ++ "\x1b[0m")
        ++ "\n" := by
  by_cases h : errMsg = "" <;> simp [formatText, h, String.append_assoc]

/-! ## Substrings -/

theorem startsWith_append (p t : List Char) : startsWith (p ++ t) p = true := by
  induction p with
  | nil => simp [startsWith]
  | cons a p ih => simp [startsWith, ih]

theorem containsAt_append (q p t : List Char) : containsAt (q ++ (p ++ t)) p = true := by
  induction q with
  | nil =>
    cases h : p ++ t with
    | nil =>
      have hp : p = [] := (List.append_eq_nil.mp h).1
      simp [containsAt, hp, startsWith]
    | cons a l => simp [containsAt, ← h, startsWith_append]
  | cons a q ih => simp [containsAt, ih]

/-- A text that is `pre ++ sub ++ post` passes the check `containsAt`. -/
theorem containsAt_of_eq (s sub pre post : String) (h : s = pre ++ sub ++ post) :
    containsAt s.data sub.data = true := by
  subst h
  simp only [String.data_append, List.append_assoc]
  exact containsAt_append _ _ _

/-! ## The run of a request that is not skipped -/

theorem newOptions_output_format (t : Bool) (w : Writer) (f : FormatType) :
    newOptions t [Output w, Format f] =
      { Skipper := DefaultSkipper, Output := w, Format := f, isTerminal := t } := by
  simp [newOptions, Output, Format, GetDefaultOptions]

/-- The run of a request that is not skipped: nil is returned, the context is
the one left by the handler and by `c.Error`, the buffer goes back to the pool
holding the line, and the line is written once. -/
theorem middleware_not_skipped (opts : Options) (cError : GoError → Context → Context)
    (next : HandlerFunc) (s : State) (hskip : opts.Skipper s.c = false) :
    middleware opts cError next s =
      (none,
        { c := (match (next s.c).1 with
            | some e => cError e (next s.c).2
            | none => (next s.c).2),
          pool := logLine opts (next s.c).1
              (match (next s.c).1 with
                | some e => cError e (next s.c).2
                | none => (next s.c).2)
              (durationString ((match (next s.c).1 with
                | some e => cError e (next s.c).2
                | none => (next s.c).2).now - s.c.now)) :: s.pool.tail,
          calls := (match (next s.c).1 with
              | some e => s.calls ++ [Event.next] ++ [Event.cError e]
              | none => s.calls ++ [Event.next])
            ++ [Event.write opts.Output (logLine opts (next s.c).1
              (match (next s.c).1 with
                | some e => cError e (next s.c).2
                | none => (next s.c).2)
              (durationString ((match (next s.c).1 with
                | some e => cError e (next s.c).2
                | none => (next s.c).2).now - s.c.now)))] }) := by
  simp [middleware, hskip, bufReset]

theorem middleware_statusHandler (opts : Options) (cError : GoError → Context → Context)
    (status dt : Int) (s : State) (hskip : opts.Skipper s.c = false) :
    (middleware opts cError (statusHandler status dt) s).2.calls =
      s.calls ++ [Event.next, Event.write opts.Output
        (logLine opts none { s.c with Status := status, now := s.c.now + dt }
          (durationString dt))] := by
  simp [middleware, hskip, statusHandler, bufReset]

theorem written_append (w : Writer) (l1 l2 : List Event) :
    written w (l1 ++ l2) = written w l1 ++ written w l2 := by
  induction l1 with
  | nil => simp [written]
  | cons e l1 ih =>
    cases e with
    | next => simpa [written] using ih
    | cError e => simpa [written] using ih
    | write w2 p =>
      by_cases hw : w2 = w <;> simp [written, hw, ih, String.append_assoc]

/-- C8: the property asserted by `TestLoggerWithTextFormat`, evaluated on the
code with the standard output a terminal. For GET /ok and a handler that sets
status 200, `New(Output(buf), Format(FormatTypeText))` writes
`ESC[36m200ESC[0m method=GET path=/ok latency=0s` and a newline to `buf`, which
does not contain `200 method=GET path=/ok latency=`: the terminal flag is taken
from the standard output (line 94) although the line goes to `buf`. -/
theorem text_test_substring_fails_on_terminal :
    written (Writer.Buffer 0)
        (New true [Output (Writer.Buffer 0), Format FormatTypeText] (fun _ c => c)
          (statusHandler 200 0) ⟨⟨"GET", "/ok", 0, 0⟩, [], []⟩).2.calls
      = "\x1b[36m200\x1b[0m method=GET path=/ok latency=0s\n" ∧
    ¬ ∃ pre post : String,
      written (Writer.Buffer 0)
        (New true [Output (Writer.Buffer 0), Format FormatTypeText] (fun _ c => c)
          (statusHandler 200 0) ⟨⟨"GET", "/ok", 0, 0⟩, [], []⟩).2.calls
        = pre ++ "200 method=GET path=/ok latency=" ++ post := by
  refine ⟨by decide, ?_⟩
  rintro ⟨pre, post, h⟩
  have hc := containsAt_of_eq _ _ pre post h
  revert hc
  decide

/-- What the middleware of the text test writes: built with
`New(Output(buf), Format(FormatTypeText))` and run on a handler that sets the
status, it appends to `buf` a text beginning with
`<status> method=<method> path=<path> latency=` when the standard output is
not a terminal, and with
`ESC[<color>m<status>ESC[0m method=<method> path=<path> latency=` when it is. -/
theorem text_test_substring (status dt : Int) (buf : Nat)
    (cError : GoError → Context → Context) (s : State) :
    (∃ post : String,
      written (Writer.Buffer buf)
        (New false [Output (Writer.Buffer buf), Format FormatTypeText] cError
          (statusHandler status dt) s).2.calls
        = written (Writer.Buffer buf) s.calls
          ++ (fmtD status ++ " method=" ++ s.c.Method ++ " path=" ++ s.c.Path ++ " latency=")
          ++ post) ∧
    (∃ post : String,
      written (Writer.Buffer buf)
        (New true [Output (Writer.Buffer buf), Format FormatTypeText] cError
          (statusHandler status dt) s).2.calls
        = written (Writer.Buffer buf) s.calls
          ++ ("\x1b[" ++ fmtD (classify none status).2 ++ "m" ++ fmtD status
            ++ "\x1b[0m method=" ++ s.c.Method ++ " path=" ++ s.c.Path ++ " latency=")
          ++ post) := by
  constructor
  · refine ⟨durationString dt ++ " \n", ?_⟩
    have hcl : (classify none status).1 = "" := by
      unfold classify; simp only; split_ifs <;> rfl
    rw [New, newOptions_output_format, middleware_statusHandler _ _ _ _ _ rfl, written_append]
    simp [written, logLine, formatText, hcl, FormatTypeText, String.append_assoc]
  · refine ⟨durationString dt ++ "\n", ?_⟩
    have hcl : (classify none status).1 = "" := by
      unfold classify; simp only; split_ifs <;> rfl
    rw [New, newOptions_output_format, middleware_statusHandler _ _ _ _ _ rfl, written_append]
    simp [written, logLine, formatText, hcl, FormatTypeText, String.append_assoc]

/-- C9: in text mode, terminal-capable or not, the line contains
`method=<M> path=<P> latency=` with the method and path of the request, for
every status, method, path and error. -/
theorem text_contains_method_path (opts : Options) (err : Option GoError) (c : Context)
    (latency : String) (h : opts.Format = FormatTypeText) :
    ∃ pre post : String,
      logLine opts err c latency
        = pre ++ ("method=" ++ c.Method ++ " path=" ++ c.Path ++ " latency=") ++ post := by
  have e1 : ∀ x : String, " " ++ ("method=" ++ x) = " method=" ++ x := by
    intro x; rw [← String.append_assoc]; rfl
  have e2 : ∀ x : String, "\x1b[0m " ++ ("method=" ++ x) = "\x1b[0m method=" ++ x := by
    intro x; rw [← String.append_assoc]; rfl
  cases ht : opts.isTerminal
  · refine ⟨fmtD c.Status ++ " ", latency ++ " " ++ (classify err c.Status).1
      ++ (if (classify err c.Status).1 = "" then "" else " err=" ++ (classify err c.Status).1)
      ++ "\n", ?_⟩
    by_cases he : (classify err c.Status).1 = "" <;>
      simp [logLine, formatText, h, ht, he, String.append_assoc, e1, e2]
  · refine ⟨"\x1b[" ++ fmtD (classify err c.Status).2 ++ "m" ++ fmtD c.Status ++ "\x1b[0m ",
      latency ++ (if (classify err c.Status).1 = "" then ""
        else " \x1b[" ++ fmtD (classify err c.Status).2 ++ "merr=" ++ (classify err c.Status).1
          ++ "\x1b[0m") ++ "\n", ?_⟩
    by_cases he : (classify err c.Status).1 = "" <;>
      simp [logLine, formatText, h, ht, he, String.append_assoc, e1, e2]

theorem text_contains_method_path_witness :
    (newOptions true [Format FormatTypeText]).Format = FormatTypeText ∧
    ∃ pre post : String,
      logLine (newOptions true [Format FormatTypeText]) (some ⟨"something went wrong"⟩)
          ⟨"DELETE", "/err", 500, 0⟩ "1.2ms"
        = pre ++ ("method=" ++ "DELETE" ++ " path=" ++ "/err" ++ " latency=") ++ post :=
  ⟨by decide, text_contains_method_path (newOptions true [Format FormatTypeText])
    (some ⟨"something went wrong"⟩) ⟨"DELETE", "/err", 500, 0⟩ "1.2ms" (by decide)⟩

/-! ## JSON format theorems -/

theorem digitChar_mem (n : Nat) (h : n < 10) : Nat.digitChar n ∈ durationChars := by
  interval_cases n <;> decide

theorem durationChars_escape : ∀ c ∈ durationChars, jsonEscapeChar c = [c] := by
  decide

theorem fmtFracLoop_chars (n : Nat) : ∀ (buf : List Char) (v : Nat) (print : Bool),
    (∀ c ∈ buf, c ∈ durationChars) →
    ∀ c ∈ (fmtFracLoop n buf v print).1, c ∈ durationChars := by
  induction n with
  | zero => intro buf v print hb; simpa [fmtFracLoop] using hb
  | succ n ih =>
    intro buf v print hb
    simp only [fmtFracLoop]
    apply ih
    split_ifs
    · intro c hc
      rcases List.mem_cons.mp hc with rfl | hc
      · exact digitChar_mem _ (Nat.mod_lt _ (by decide))
      · exact hb c hc
    · exact hb

theorem fmtFrac_chars (buf : List Char) (v prec : Nat) (hb : ∀ c ∈ buf, c ∈ durationChars) :
    ∀ c ∈ (fmtFrac buf v prec).1, c ∈ durationChars := by
  have h := fmtFracLoop_chars prec buf v false hb
  simp only [fmtFrac]
  split_ifs
  · intro c hc
    rcases List.mem_cons.mp hc with rfl | hc
    · decide
    · exact h c hc
  · exact h

theorem fmtIntLoop_chars (fuel : Nat) : ∀ (v : Nat) (buf : List Char),
    (∀ c ∈ buf, c ∈ durationChars) →
    ∀ c ∈ fmtIntLoop fuel v buf, c ∈ durationChars := by
  induction fuel with
  | zero => intro v buf hb; simpa [fmtIntLoop] using hb
  | succ fuel ih =>
    intro v buf hb
    simp only [fmtIntLoop]
    split_ifs
    · exact hb
    · apply ih
      intro c hc
      rcases List.mem_cons.mp hc with rfl | hc
      · exact digitChar_mem _ (Nat.mod_lt _ (by decide))
      · exact hb c hc

theorem fmtInt_chars (buf : List Char) (v : Nat) (hb : ∀ c ∈ buf, c ∈ durationChars) :
    ∀ c ∈ fmtInt buf v, c ∈ durationChars := by
  simp only [fmtInt]
  split_ifs
  · intro c hc
    rcases List.mem_cons.mp hc with rfl | hc
    · decide
    · exact hb c hc
  · exact fmtIntLoop_chars _ _ _ hb

theorem cons_chars (a : Char) (buf : List Char) (ha : a ∈ durationChars)
    (hb : ∀ c ∈ buf, c ∈ durationChars) : ∀ c ∈ a :: buf, c ∈ durationChars := by
  intro c hc
  rcases List.mem_cons.mp hc with rfl | hc
  · exact ha
  · exact hb c hc

theorem ite_chars (p : Prop) [Decidable p] (a b : List Char)
    (ha : ∀ c ∈ a, c ∈ durationChars) (hb : ∀ c ∈ b, c ∈ durationChars) :
    ∀ c ∈ (if p then a else b), c ∈ durationChars := by
  split_ifs
  · exact ha
  · exact hb

/-- A rendered duration is made of digits, the point, the unit letters and the
minus sign. -/
theorem durationString_chars (d : Int) : ∀ c ∈ (durationString d).data, c ∈ durationChars := by
  have hs : ∀ c ∈ ['s'], c ∈ durationChars := by decide
  have hns : ∀ c ∈ ['n', 's'], c ∈ durationChars := by decide
  have hus : ∀ c ∈ ['µ', 's'], c ∈ durationChars := by decide
  have hms : ∀ c ∈ ['m', 's'], c ∈ durationChars := by decide
  have h0s : ∀ c ∈ ['0', 's'], c ∈ durationChars := by decide
  have f9 := fmtFrac_chars ['s'] d.natAbs 9 hs
  have i9 := fmtInt_chars _ ((fmtFrac ['s'] d.natAbs 9).2 % 60) f9
  have m9 := fmtInt_chars _ ((fmtFrac ['s'] d.natAbs 9).2 / 60 % 60)
    (cons_chars 'm' _ (by decide) i9)
  have h9 := fmtInt_chars _ ((fmtFrac ['s'] d.natAbs 9).2 / 60 / 60)
    (cons_chars 'h' _ (by decide) m9)
  have body := ite_chars (d.natAbs < 1000000000) _ _
    (ite_chars (d.natAbs = 0) _ _ h0s
      (ite_chars (d.natAbs < 1000) _ _
        (fmtInt_chars _ (fmtFrac ['n', 's'] d.natAbs 0).2 (fmtFrac_chars _ d.natAbs 0 hns))
        (ite_chars (d.natAbs < 1000000) _ _
          (fmtInt_chars _ (fmtFrac ['µ', 's'] d.natAbs 3).2 (fmtFrac_chars _ d.natAbs 3 hus))
          (fmtInt_chars _ (fmtFrac ['m', 's'] d.natAbs 6).2 (fmtFrac_chars _ d.natAbs 6 hms)))))
    (ite_chars ((fmtFrac ['s'] d.natAbs 9).2 / 60 > 0) _ _
      (ite_chars ((fmtFrac ['s'] d.natAbs 9).2 / 60 / 60 > 0) _ _ h9 m9) i9)
  simp only [durationString]
  exact ite_chars (d < 0) _ _ (cons_chars '-' _ (by decide) body) body

theorem flatMap_escape_id (l : List Char) (h : ∀ c ∈ l, jsonEscapeChar c = [c]) :
    l.flatMap jsonEscapeChar = l := by
  induction l with
  | nil => rfl
  | cons a l ih =>
    rw [List.flatMap_cons, h a (List.mem_cons_self a l),
      ih (fun c hc => h c (List.mem_cons_of_mem a hc))]
    rfl

/-- A string made of characters that the encoder leaves unchanged is encoded
as itself between double quotes. -/
theorem jsonString_unchanged (s : String) (h : ∀ c ∈ s.data, jsonEscapeChar c = [c]) :
    jsonString s = "\"" ++ s ++ "\"" := by
  simp [jsonString, flatMap_escape_id s.data h]

theorem jsonString_duration (d : Int) :
    jsonString (durationString d) = "\"" ++ durationString d ++ "\"" :=
  jsonString_unchanged _ (fun c hc => durationChars_escape c (durationString_chars d c hc))

/-- C10: in JSON mode, for a method and a path made of characters that the
encoder leaves unchanged and the rendering of any duration as latency, the
line begins with
`{"status":<status>,"method":"<method>","path":"<path>","latency":"` and, when
the error text is empty, is
`{"status":<status>,"method":"<method>","path":"<path>","latency":"<latency>"}`
followed by a newline. -/
theorem formatJSON_no_error (status d : Int) (method path errMsg : String)
    (hm : ∀ c ∈ method.data, jsonEscapeChar c = [c])
    (hp : ∀ c ∈ path.data, jsonEscapeChar c = [c]) :
    (∃ rest : String,
      formatJSON status method path (durationString d) errMsg
        = "\x7b\"status\":" ++ fmtD status ++ ",\"method\":\"" ++ method ++ "\",\"path\":\""
          ++ path ++ "\",\"latency\":\"" ++ rest) ∧
    formatJSON status method path (durationString d) ""
      = "\x7b\"status\":" ++ fmtD status ++ ",\"method\":\"" ++ method ++ "\",\"path\":\""
        ++ path ++ "\",\"latency\":\"" ++ durationString d ++ "\"\x7d" ++ "\n" := by
  have hj : ∀ e : String,
      formatJSON status method path (durationString d) e
        = "\x7b\"status\":" ++ fmtD status ++ ",\"method\":\"" ++ method ++ "\",\"path\":\""
          ++ path ++ "\",\"latency\":\"" ++ (durationString d ++ "\""
          ++ (if e = "" then "" else ",\"error\":" ++ jsonString e) ++ "\x7d\n") := by
    intro e
    by_cases he : e = ""
    · simp only [formatJSON, jsonString_unchanged _ hm, jsonString_unchanged _ hp,
        jsonString_duration, he, ne_eq, not_true_eq_false, if_false, if_true]
      apply String.ext
      simp only [String.data_append, List.append_assoc]
      rfl
    · simp only [formatJSON, jsonString_unchanged _ hm, jsonString_unchanged _ hp,
        jsonString_duration, he, ne_eq, not_false_eq_true, if_false, if_true]
      apply String.ext
      simp only [String.data_append, List.append_assoc]
      rfl
  constructor
  · exact ⟨_, hj errMsg⟩
  · rw [hj ""]
    apply String.ext
    simp only [String.data_append, List.append_assoc, if_true]
    rfl

theorem formatJSON_no_error_witness :
    (∀ c ∈ "GET".data, jsonEscapeChar c = [c]) ∧ (∀ c ∈ "/ok".data, jsonEscapeChar c = [c]) ∧
    ((∃ rest : String,
      formatJSON 200 "GET" "/ok" (durationString 1200000) "boom"
        = "\x7b\"status\":" ++ fmtD 200 ++ ",\"method\":\"" ++ "GET" ++ "\",\"path\":\""
          ++ "/ok" ++ "\",\"latency\":\"" ++ rest) ∧
    formatJSON 200 "GET" "/ok" (durationString 1200000) ""
      = "\x7b\"status\":" ++ fmtD 200 ++ ",\"method\":\"" ++ "GET" ++ "\",\"path\":\""
        ++ "/ok" ++ "\",\"latency\":\"" ++ durationString 1200000 ++ "\"\x7d" ++ "\n") :=
  ⟨by decide, by decide, formatJSON_no_error 200 1200000 "GET" "/ok" "boom" (by decide) (by decide)⟩

/-! ## The JSON line read back -/

theorem hexVal_digitChar (k : Nat) (h : k < 16) : hexVal (Nat.digitChar k) = some k := by
  interval_cases k <;> decide


theorem readString_escapeChar (c : Char) (tail : List Char) :
    readStr ReadState.normal (jsonEscapeChar c ++ tail)
      = (readStr ReadState.normal tail).map fun r => (c :: r.1, r.2) := by
  unfold jsonEscapeChar
  split_ifs with h1 h2 h3 h4 h5 h6 h7 h8
  · rcases h1 with rfl | rfl
    · simp [readString, readStr, unescapeShort]
    · simp [readString, readStr, unescapeShort]
  · subst h2; simp [readString, readStr, unescapeShort]
  · subst h3; simp [readString, readStr, unescapeShort]
  · subst h4; simp [readString, readStr, unescapeShort]
  · subst h5; simp [readString, readStr, unescapeShort]
  · subst h6; simp [readString, readStr, unescapeShort]
  · have hlt : c.toNat < 64 := by
      rcases h7 with h | rfl | rfl | rfl
      · omega
      · decide
      · decide
      · decide
    have hv : Nat.isValidChar c.toNat := c.valid
    have hq : c.toNat / 16 < 16 := by omega
    have hr : c.toNat % 16 < 16 := Nat.mod_lt _ (by decide)
    have h0 : hexVal '0' = some 0 := by decide
    have hn : c.toNat / 16 * 16 + c.toNat % 16 = c.toNat := by omega
    simp [readString, readStr, hexVal_digitChar _ hq, hexVal_digitChar _ hr, h0, hn, hv]
  · have hv : Nat.isValidChar c.toNat := c.valid
    have hr : c.toNat % 16 < 16 := Nat.mod_lt _ (by decide)
    have h0 : hexVal '0' = some 0 := by decide
    have h2 : hexVal '2' = some 2 := by decide
    have hn : ((2 * 16 + 0) * 16 + 2) * 16 + c.toNat % 16 = c.toNat := by omega
    simp [readString, readStr, hexVal_digitChar _ hr, h0, h2, hn, hv]
  · have hq : ¬ c = Char.ofNat 34 := fun h => h1 (Or.inl h)
    have hb : ¬ c = Char.ofNat 92 := fun h => h1 (Or.inr h)
    have hc : ¬ c.toNat < 32 := fun h => h7 (Or.inl h)
    simp [readString, readStr, hq, hb, hc]

theorem readString_escape (s tail : List Char) :
    readStr ReadState.normal (s.flatMap jsonEscapeChar ++ Char.ofNat 34 :: tail)
      = some (s, tail) := by
  induction s with
  | nil => simp [readString, readStr]
  | cons c s ih =>
    rw [List.flatMap_cons, List.append_assoc, readString_escapeChar, ih]
    rfl


theorem digitChar_isDigit (m : Nat) (h : m < 10) :
    (Nat.digitChar m).isDigit = true ∧ (Nat.digitChar m).toNat - 48 = m := by
  interval_cases m <;> decide

theorem readDigits_toDigitsCore (fuel : Nat) : ∀ (n : Nat) (ds : List Char), n < fuel →
    ∃ k : Nat, ∀ (acc : Nat) (rest : List Char),
      readDigits acc (Nat.toDigitsCore 10 fuel n ds ++ rest)
        = readDigits (acc * 10 ^ k + n) (ds ++ rest) := by
  induction fuel with
  | zero => intro n ds h; omega
  | succ fuel ih =>
    intro n ds h
    have hd := digitChar_isDigit (n % 10) (Nat.mod_lt _ (by decide))
    by_cases h0 : n / 10 = 0
    · refine ⟨1, ?_⟩
      intro acc rest
      have hn : n % 10 = n := by omega
      simp only [Nat.toDigitsCore, h0, if_true, List.cons_append, readDigits, hd.1, hd.2]
      rw [hn, pow_one]
    · obtain ⟨k, hk⟩ := ih (n / 10) (Nat.digitChar (n % 10) :: ds) (by omega)
      refine ⟨k + 1, ?_⟩
      intro acc rest
      simp only [Nat.toDigitsCore, h0, if_false]
      rw [hk acc rest]
      simp only [List.cons_append, readDigits, hd.1, hd.2, if_true]
      congr 1
      rw [pow_succ]
      have := Nat.div_add_mod n 10
      nlinarith [this]

theorem toDigitsCore_head (fuel : Nat) : ∀ (n : Nat) (ds : List Char),
    ∃ (d : Char) (tl : List Char),
      Nat.toDigitsCore 10 (fuel + 1) n ds = d :: tl ∧ d.isDigit = true := by
  induction fuel with
  | zero =>
    intro n ds
    have hd := digitChar_isDigit (n % 10) (Nat.mod_lt _ (by decide))
    by_cases h0 : n / 10 = 0
    · exact ⟨Nat.digitChar (n % 10), ds, by simp only [Nat.toDigitsCore, h0, if_true], hd.1⟩
    · exact ⟨Nat.digitChar (n % 10), ds, by simp only [Nat.toDigitsCore, h0, if_false], hd.1⟩
  | succ fuel ih =>
    intro n ds
    have hd := digitChar_isDigit (n % 10) (Nat.mod_lt _ (by decide))
    by_cases h0 : n / 10 = 0
    · exact ⟨Nat.digitChar (n % 10), ds, by simp only [Nat.toDigitsCore, h0, if_true], hd.1⟩
    · obtain ⟨d, tl, h, hdig⟩ := ih (n / 10) (Nat.digitChar (n % 10) :: ds)
      refine ⟨d, tl, ?_, hdig⟩
      rw [← h]
      conv_lhs => rw [Nat.toDigitsCore]
      simp only [h0, if_false]

theorem readDigits_noDigitAhead (acc : Nat) (rest : List Char) (h : noDigitAhead rest) :
    readDigits acc rest = (acc, rest) := by
  cases rest with
  | nil => rfl
  | cons c rest =>
    have hc : c.isDigit = false := h
    simp [readDigits, hc]

theorem readInt_nat (m : Nat) (rest : List Char) (h : noDigitAhead rest) :
    readInt (Nat.toDigits 10 m ++ rest) = some ((m : Int), rest) := by
  obtain ⟨d, tl, hd, hdig⟩ := toDigitsCore_head m m []
  obtain ⟨k, hk⟩ := readDigits_toDigitsCore (m + 1) m [] (by omega)
  have hread := hk 0 rest
  simp only [Nat.zero_mul, Nat.zero_add, List.nil_append] at hread
  rw [readDigits_noDigitAhead m rest h] at hread
  have hne : d ≠ '-' := by
    rintro rfl
    revert hdig
    decide
  unfold Nat.toDigits
  rw [hd] at hread ⊢
  simp only [List.cons_append, readInt, hne, if_false, hdig, if_true]
  rw [List.cons_append] at hread
  rw [hread]


theorem fmtD_data (n : Int) :
    (∃ m : Nat, n = (m : Int) ∧ (fmtD n).data = Nat.toDigits 10 m) ∨
    (∃ m : Nat, n = -((m : Int) + 1) ∧ (fmtD n).data = '-' :: Nat.toDigits 10 (m + 1)) := by
  cases n with
  | ofNat m => exact Or.inl ⟨m, rfl, rfl⟩
  | negSucc m => exact Or.inr ⟨m, Int.negSucc_eq m, rfl⟩

theorem readInt_fmtD (n : Int) (rest : List Char) (h : noDigitAhead rest) :
    readInt ((fmtD n).data ++ rest) = some (n, rest) := by
  rcases fmtD_data n with ⟨m, rfl, hd⟩ | ⟨m, rfl, hd⟩
  · rw [hd, readInt_nat m rest h]
  · obtain ⟨d, tl, hh, hdig⟩ := toDigitsCore_head (m + 1) (m + 1) []
    obtain ⟨k, hk⟩ := readDigits_toDigitsCore (m + 1 + 1) (m + 1) [] (by omega)
    have hread := hk 0 rest
    simp only [Nat.zero_mul, Nat.zero_add, List.nil_append] at hread
    rw [readDigits_noDigitAhead (m + 1) rest h] at hread
    rw [hd]
    unfold Nat.toDigits
    rw [hh] at hread ⊢
    rw [List.cons_append] at hread
    simp only [List.cons_append, readInt, if_true, hdig, hread]
    simp

theorem fmtD_head (n : Int) :
    ∃ (c : Char) (tl : List Char), (fmtD n).data = c :: tl ∧ c ≠ Char.ofNat 34 := by
  rcases fmtD_data n with ⟨m, _, hd⟩ | ⟨m, _, hd⟩
  · obtain ⟨d, tl, hh, hdig⟩ := toDigitsCore_head m m []
    refine ⟨d, tl, by rw [hd]; exact hh, ?_⟩
    rintro rfl
    revert hdig
    decide
  · exact ⟨'-', _, hd, by decide⟩

theorem jsonString_data (s : String) :
    (jsonString s).data = Char.ofNat 34 :: (s.data.flatMap jsonEscapeChar ++ [Char.ofNat 34]) := by
  simp only [jsonString, String.data_append]
  rfl

theorem readValue_encode (v : JValue) (rest : List Char) (h : noDigitAhead rest) :
    readValue (v.encode.data ++ rest) = some (v, rest) := by
  cases v with
  | num n =>
    obtain ⟨c, tl, hc, hne⟩ := fmtD_head n
    have hr := readInt_fmtD n rest h
    simp only [JValue.encode]
    rw [hc] at hr ⊢
    simp only [List.cons_append, readValue, hne, if_false] at hr ⊢
    rw [hr]
    rfl
  | str s =>
    simp only [JValue.encode, jsonString_data, List.cons_append, List.append_assoc,
      List.singleton_append, readValue, if_true, readString, readString_escape]
    rfl


theorem readMember_encode (k : String) (v : JValue) (rest : List Char)
    (h : noDigitAhead rest) :
    readMember ((jsonString k).data ++ ':' :: (v.encode.data ++ rest))
      = some ((k, v), rest) := by
  simp only [jsonString_data, List.cons_append, List.append_assoc, List.singleton_append,
    readMember, if_true, readString, readString_escape, List.nil_append,
    readValue_encode v rest h, Option.map_some']

theorem encodeMembers_cons (kv kv2 : String × JValue) (rest : List (String × JValue)) :
    (encodeMembers (kv :: kv2 :: rest)).data
      = (jsonString kv.1).data ++ ':' :: (kv.2.encode.data
        ++ ',' :: (encodeMembers (kv2 :: rest)).data) := by
  simp only [encodeMembers, String.data_append, List.append_assoc]
  rfl

theorem encodeMembers_single (kv : String × JValue) :
    (encodeMembers [kv]).data = (jsonString kv.1).data ++ ':' :: kv.2.encode.data := by
  simp only [encodeMembers, String.data_append, List.append_assoc]
  rfl

theorem readMembers_encode (rest : List (String × JValue)) :
    ∀ (kv : String × JValue) (fuel : Nat) (tail : List Char), rest.length + 1 ≤ fuel →
      readMembers fuel ((encodeMembers (kv :: rest)).data ++ Char.ofNat 125 :: tail)
        = some (kv :: rest, tail) := by
  induction rest with
  | nil =>
    intro kv fuel tail hf
    obtain ⟨fuel, rfl⟩ : ∃ f, fuel = f + 1 := ⟨fuel - 1, by simp at hf; omega⟩
    have hnd : noDigitAhead (Char.ofNat 125 :: tail) := by
      show (Char.ofNat 125).isDigit = false
      decide
    have hm := readMember_encode kv.1 kv.2 (Char.ofNat 125 :: tail) hnd
    rw [encodeMembers_single, List.append_assoc, List.cons_append]
    simp only [readMembers, hm]
    simp
  | cons kv2 rest ih =>
    intro kv fuel tail hf
    obtain ⟨fuel, rfl⟩ : ∃ f, fuel = f + 1 := ⟨fuel - 1, by simp at hf; omega⟩
    have hnd : noDigitAhead
        (',' :: ((encodeMembers (kv2 :: rest)).data ++ Char.ofNat 125 :: tail)) := by
      show (',' : Char).isDigit = false
      decide
    have hm := readMember_encode kv.1 kv.2 _ hnd
    rw [encodeMembers_cons, List.append_assoc, List.cons_append, List.append_assoc,
      List.cons_append]
    simp only [readMembers, hm, if_true]
    rw [ih kv2 fuel tail (by simp at hf ⊢; omega)]
    rfl

theorem encodeMembers_length (ms : List (String × JValue)) :
    ms.length ≤ (encodeMembers ms).data.length := by
  induction ms with
  | nil => simp
  | cons kv rest ih =>
    cases rest with
    | nil =>
      rw [encodeMembers_single, jsonString_data]
      simp
    | cons kv2 rest =>
      rw [encodeMembers_cons, jsonString_data]
      simp only [List.length_append, List.length_cons] at ih ⊢
      omega

/-- Reading back what the encoder writes for an object gives the members it
was written from, with their keys and values, in order. -/
theorem parseObject_encodeObject (ms : List (String × JValue)) :
    parseObject (encodeObject ms) = some ms := by
  have hdata : (encodeObject ms).data
      = Char.ofNat 123 :: ((encodeMembers ms).data ++ [Char.ofNat 125, Char.ofNat 10]) := by
    simp only [encodeObject, String.data_append]
    rfl
  cases ms with
  | nil =>
    simp only [parseObject, hdata]
    rfl
  | cons kv rest =>
    have hlen := encodeMembers_length (kv :: rest)
    have hr := readMembers_encode rest kv
      ((encodeMembers (kv :: rest)).data ++ [Char.ofNat 125, Char.ofNat 10]).length
      [Char.ofNat 10] (by simp only [List.length_append, List.length_cons] at hlen ⊢; omega)
    have hhead : ∃ tl, (encodeMembers (kv :: rest)).data = Char.ofNat 34 :: tl := by
      cases rest with
      | nil => exact ⟨_, by rw [encodeMembers_single, jsonString_data]; rfl⟩
      | cons kv2 rest => exact ⟨_, by rw [encodeMembers_cons, jsonString_data]; rfl⟩
    obtain ⟨tl, htl⟩ := hhead
    have hne : ¬ ((encodeMembers (kv :: rest)).data ++ [Char.ofNat 125, Char.ofNat 10]
        = [Char.ofNat 125, Char.ofNat 10]) := by
      rw [htl]
      simp
    simp only [parseObject, hdata, if_true, hne, if_false, hr]


/-- The JSON line is what the encoder writes for the object with the members
status, method, path, latency and, when the error text is not empty, error. -/
theorem formatJSON_encodeObject (status : Int) (method path latency errMsg : String) :
    formatJSON status method path latency errMsg
      = encodeObject ([("status", JValue.num status), ("method", JValue.str method),
          ("path", JValue.str path), ("latency", JValue.str latency)]
        ++ (if errMsg = "" then [] else [("error", JValue.str errMsg)])) := by
  have k1 : jsonString "status" = "\"status\"" := by decide
  have k2 : jsonString "method" = "\"method\"" := by decide
  have k3 : jsonString "path" = "\"path\"" := by decide
  have k4 : jsonString "latency" = "\"latency\"" := by decide
  have k5 : jsonString "error" = "\"error\"" := by decide
  by_cases he : errMsg = ""
  · simp only [formatJSON, encodeObject, encodeMembers, JValue.encode, he, ne_eq,
      not_true_eq_false, if_false, if_true, List.append_nil, k1, k2, k3, k4]
    apply String.ext
    simp only [String.data_append, List.append_assoc]
    rfl
  · simp only [formatJSON, encodeObject, encodeMembers, JValue.encode, he, ne_eq,
      not_false_eq_true, if_false, if_true, List.cons_append, List.nil_append,
      k1, k2, k3, k4, k5]
    apply String.ext
    simp only [String.data_append, List.append_assoc]
    rfl

/-- C11: read back as JSON, the line emitted in JSON mode is an object whose
members are, in this order, status (the status as a number), method, path and
latency (the request's method and path and the latency as strings), followed
by error exactly when the error text is non-empty, that is exactly when the
handler returned an error with a non-empty message and the status is 500 or
more; error, when present, is the last member and its value is the error
text. -/
theorem json_line_fields (opts : Options) (err : Option GoError) (c : Context)
    (latency : String) (hf : opts.Format ≠ FormatTypeText) :
    parseObject (logLine opts err c latency)
      = some ([("status", JValue.num c.Status), ("method", JValue.str c.Method),
          ("path", JValue.str c.Path), ("latency", JValue.str latency)]
        ++ (if (classify err c.Status).1 = "" then []
          else [("error", JValue.str (classify err c.Status).1)])) ∧
    ((classify err c.Status).1 ≠ ""
      ↔ ∃ e : GoError, err = some e ∧ e.msg ≠ "" ∧ c.Status ≥ 500) := by
  constructor
  · simp only [logLine, hf, if_false]
    rw [formatJSON_encodeObject, parseObject_encodeObject]
  · cases err with
    | none =>
      have h0 : (classify none c.Status).1 = "" := by
        unfold classify; simp only; split_ifs <;> rfl
      simp [h0]
    | some e =>
      by_cases hs : c.Status ≥ 500
      · have hd : decide (c.Status ≥ 500) = true := decide_eq_true hs
        simp [classify, hd, fmtV, hs]
      · have hd : decide (c.Status ≥ 500) = false := decide_eq_false hs
        have h0 : (classify (some e) c.Status).1 = "" := by
          simp only [classify, hd]; split_ifs <;> rfl
        simp [h0, hs]

theorem json_line_fields_witness :
    (⟨DefaultSkipper, Writer.Stderr, FormatTypeJSON, false⟩ : Options).Format
      ≠ FormatTypeText ∧
    (parseObject (logLine ⟨DefaultSkipper, Writer.Stderr, FormatTypeJSON, false⟩
        (some ⟨"disk \"sda\" <failed>"⟩) ⟨"DELETE", "/a&b", 500, 0⟩ "1.5µs")
      = some ([("status", JValue.num 500), ("method", JValue.str "DELETE"),
          ("path", JValue.str "/a&b"), ("latency", JValue.str "1.5µs")]
        ++ (if (classify (some ⟨"disk \"sda\" <failed>"⟩) 500).1 = "" then []
          else [("error", JValue.str (classify (some ⟨"disk \"sda\" <failed>"⟩) 500).1)])) ∧
    ((classify (some ⟨"disk \"sda\" <failed>"⟩) 500).1 ≠ ""
      ↔ ∃ e : GoError, some (⟨"disk \"sda\" <failed>"⟩ : GoError) = some e ∧ e.msg ≠ ""
        ∧ (500 : Int) ≥ 500)) :=
  ⟨by decide, json_line_fields ⟨DefaultSkipper, Writer.Stderr, FormatTypeJSON, false⟩
    (some ⟨"disk \"sda\" <failed>"⟩) ⟨"DELETE", "/a&b", 500, 0⟩ "1.5µs" (by decide)⟩

/-! ## The middleware and its collaborators -/

theorem middleware_skipped (opts : Options) (cError : GoError → Context → Context)
    (next : HandlerFunc) (s : State) (hskip : opts.Skipper s.c = true) :
    middleware opts cError next s =
      ((next s.c).1, { s with c := (next s.c).2, calls := s.calls ++ [Event.next] }) := by
  simp [middleware, hskip]

theorem writes_append (l1 l2 : List Event) : writes (l1 ++ l2) = writes l1 ++ writes l2 := by
  induction l1 with
  | nil => simp [writes]
  | cons e l1 ih => cases e <;> simp [writes, ih]

theorem errorsReported_append (l1 l2 : List Event) :
    errorsReported (l1 ++ l2) = errorsReported l1 ++ errorsReported l2 := by
  induction l1 with
  | nil => simp [errorsReported]
  | cons e l1 ih => cases e <;> simp [errorsReported, ih]

theorem nextCount_append (l1 l2 : List Event) :
    nextCount (l1 ++ l2) = nextCount l1 + nextCount l2 := by
  induction l1 with
  | nil => simp [nextCount]
  | cons e l1 ih =>
    cases e with
    | next => simp [nextCount, ih]; omega
    | cError e => simp [nextCount, ih]
    | write w p => simp [nextCount, ih]

/-- Every log line ends with a newline. -/
theorem logLine_newline (opts : Options) (err : Option GoError) (c : Context)
    (latency : String) : ∃ body : String, logLine opts err c latency = body ++ "\n" := by
  by_cases hf : opts.Format = FormatTypeText
  · cases ht : opts.isTerminal
    · simp only [logLine, hf, formatText, ht, if_true]
      exact ⟨_, rfl⟩
    · simp only [logLine, hf, formatText, ht, if_true]
      exact ⟨_, rfl⟩
  · refine ⟨"\x7b\"status\":" ++ fmtD c.Status ++ ",\"method\":" ++ jsonString c.Method
      ++ ",\"path\":" ++ jsonString c.Path ++ ",\"latency\":" ++ jsonString latency
      ++ (if (classify err c.Status).1 = "" then ""
        else ",\"error\":" ++ jsonString (classify err c.Status).1) ++ "\x7d", ?_⟩
    by_cases he : (classify err c.Status).1 = ""
    · simp only [logLine, hf, formatJSON, he, ne_eq, not_true_eq_false, if_false, if_true]
      apply String.ext
      simp only [String.data_append, List.append_assoc]
      rfl
    · simp only [logLine, hf, formatJSON, he, ne_eq, not_false_eq_true, if_false, if_true]
      apply String.ext
      simp only [String.data_append, List.append_assoc]
      rfl

/-- C12, as stated, fails on a skipped request: the middleware returns the
error of the handler. -/
theorem skipped_request_returns_handler_error :
    (middleware ⟨skipAll, Writer.Stderr, FormatTypeText, false⟩ (cErrorStatus 500)
      (errorHandler "something went wrong") ⟨⟨"GET", "/err", 200, 0⟩, [], []⟩).1
      = some ⟨"something went wrong"⟩ := by
  decide

/-- C12, amended: on a request that is not skipped the middleware returns nil,
whatever the handler returns; on a skipped request it returns what the handler
returns. -/
theorem middleware_result (opts : Options) (cError : GoError → Context → Context)
    (next : HandlerFunc) (s : State) :
    (middleware opts cError next s).1 = if opts.Skipper s.c then (next s.c).1 else none := by
  cases hskip : opts.Skipper s.c
  · simp [middleware_not_skipped opts cError next s hskip]
  · simp [middleware_skipped opts cError next s hskip]

/-- C13, as stated, fails on a skipped request: the handler returns an error
and the middleware does not call `c.Error`. -/
theorem skipped_request_reports_no_error :
    (errorHandler "something went wrong" ⟨"GET", "/err", 200, 0⟩).1
      = some ⟨"something went wrong"⟩ ∧
    Event.cError ⟨"something went wrong"⟩ ∉
      (middleware ⟨skipAll, Writer.Stderr, FormatTypeText, false⟩ (cErrorStatus 500)
        (errorHandler "something went wrong") ⟨⟨"GET", "/err", 200, 0⟩, [], []⟩).2.calls := by
  decide

/-- C13, amended: on a request that is not skipped the middleware calls
`c.Error` once with the error when the handler returns one and not at all when
the handler returns nil; on a skipped request it never calls `c.Error`. -/
theorem middleware_errors_reported (opts : Options) (cError : GoError → Context → Context)
    (next : HandlerFunc) (s : State) :
    errorsReported (middleware opts cError next s).2.calls
      = errorsReported s.calls
        ++ (if opts.Skipper s.c then []
          else match (next s.c).1 with
            | some e => [e]
            | none => []) := by
  cases hskip : opts.Skipper s.c
  · rw [middleware_not_skipped opts cError next s hskip]
    cases hn : (next s.c).1 <;>
      simp [errorsReported_append, errorsReported]
  · rw [middleware_skipped opts cError next s hskip]
    simp [errorsReported_append, errorsReported]

/-- C14: on a request for which the skip predicate is true the middleware
writes nothing: the calls it adds are the call of the next handler alone, and
what every writer holds is unchanged. -/
theorem skipped_request_writes_nothing (opts : Options)
    (cError : GoError → Context → Context) (next : HandlerFunc) (s : State)
    (hskip : opts.Skipper s.c = true) :
    (middleware opts cError next s).2.calls = s.calls ++ [Event.next] ∧
    writes (middleware opts cError next s).2.calls = writes s.calls ∧
    ∀ w : Writer, written w (middleware opts cError next s).2.calls = written w s.calls := by
  rw [middleware_skipped opts cError next s hskip]
  refine ⟨rfl, ?_, ?_⟩
  · simp [writes_append, writes]
  · intro w
    simp [written_append, written]

theorem skipped_request_writes_nothing_witness :
    (⟨skipAll, Writer.Buffer 0, FormatTypeJSON, true⟩ : Options).Skipper
      ⟨"GET", "/ok", 0, 0⟩ = true ∧
    ((middleware ⟨skipAll, Writer.Buffer 0, FormatTypeJSON, true⟩ (cErrorStatus 500)
        (statusHandler 200 5) ⟨⟨"GET", "/ok", 0, 0⟩, [], []⟩).2.calls
      = [] ++ [Event.next] ∧
    writes (middleware ⟨skipAll, Writer.Buffer 0, FormatTypeJSON, true⟩ (cErrorStatus 500)
        (statusHandler 200 5) ⟨⟨"GET", "/ok", 0, 0⟩, [], []⟩).2.calls = writes [] ∧
    ∀ w : Writer,
      written w (middleware ⟨skipAll, Writer.Buffer 0, FormatTypeJSON, true⟩ (cErrorStatus 500)
        (statusHandler 200 5) ⟨⟨"GET", "/ok", 0, 0⟩, [], []⟩).2.calls = written w []) :=
  ⟨by decide, skipped_request_writes_nothing ⟨skipAll, Writer.Buffer 0, FormatTypeJSON, true⟩
    (cErrorStatus 500) (statusHandler 200 5) ⟨⟨"GET", "/ok", 0, 0⟩, [], []⟩ (by decide)⟩

/-- C15: a request that is not skipped makes exactly one `write` call, on the
configured output, and its bytes are the whole line, which ends with a
newline, in text and in JSON mode; a skipped request makes none. -/
theorem middleware_one_write (opts : Options) (cError : GoError → Context → Context)
    (next : HandlerFunc) (s : State) :
    ∃ body : String,
      logLine opts (next s.c).1 (middleware opts cError next s).2.c
          (durationString ((middleware opts cError next s).2.c.now - s.c.now))
        = body ++ "\n" ∧
      writes (middleware opts cError next s).2.calls
        = writes s.calls
          ++ (if opts.Skipper s.c then [] else [(opts.Output, body ++ "\n")]) := by
  obtain ⟨body, hb⟩ := logLine_newline opts (next s.c).1 (middleware opts cError next s).2.c
    (durationString ((middleware opts cError next s).2.c.now - s.c.now))
  refine ⟨body, hb, ?_⟩
  rw [← hb]
  cases hskip : opts.Skipper s.c
  · rw [middleware_not_skipped opts cError next s hskip]
    cases hn : (next s.c).1 <;>
      simp [writes_append, writes]
  · rw [middleware_skipped opts cError next s hskip]
    simp [writes_append, writes]

/-- The calls a request adds: the next handler, then, unless the request is
skipped, `c.Error` when the handler returned an error, then the write. -/
theorem middleware_calls (opts : Options) (cError : GoError → Context → Context)
    (next : HandlerFunc) (s : State) :
    (middleware opts cError next s).2.calls
      = s.calls ++ Event.next ::
        (if opts.Skipper s.c then []
          else (match (next s.c).1 with
              | some e => [Event.cError e]
              | none => [])
            ++ [Event.write opts.Output
              (logLine opts (next s.c).1 (middleware opts cError next s).2.c
                (durationString ((middleware opts cError next s).2.c.now - s.c.now)))]) := by
  cases hskip : opts.Skipper s.c
  · rw [middleware_not_skipped opts cError next s hskip]
    cases hn : (next s.c).1 <;> simp
  · rw [middleware_skipped opts cError next s hskip]
    simp

/-- C18: on every request, skipped or not, whatever the handler returns, the
middleware calls the next handler exactly once, and this call is the first
call it makes, so it comes before the write. -/
theorem middleware_next_once (opts : Options) (cError : GoError → Context → Context)
    (next : HandlerFunc) (s : State) :
    ∃ rest : List Event,
      (middleware opts cError next s).2.calls = s.calls ++ Event.next :: rest ∧
      nextCount rest = 0 ∧
      nextCount (middleware opts cError next s).2.calls = nextCount s.calls + 1 := by
  refine ⟨_, middleware_calls opts cError next s, ?_⟩
  have h0 : nextCount (if opts.Skipper s.c then []
      else (match (next s.c).1 with
          | some e => [Event.cError e]
          | none => [])
        ++ [Event.write opts.Output
          (logLine opts (next s.c).1 (middleware opts cError next s).2.c
            (durationString ((middleware opts cError next s).2.c.now - s.c.now)))]) = 0 := by
    cases opts.Skipper s.c
    · cases (next s.c).1 <;> simp [nextCount]
    · simp [nextCount]
  refine ⟨h0, ?_⟩
  rw [middleware_calls opts cError next s, nextCount_append]
  simp only [nextCount, h0]

/-! ## Configuration resolution -/

theorem resolved_fields (l : List OptionArg) :
    ((l.map OptionArg.toFunc).foldl (fun o opt => opt o) GetDefaultOptions).Format
      = specFormat l ∧
    ((l.map OptionArg.toFunc).foldl (fun o opt => opt o) GetDefaultOptions).Output
      = specOutput l ∧
    ((l.map OptionArg.toFunc).foldl (fun o opt => opt o) GetDefaultOptions).Skipper
      = specSkipper l := by
  induction l using List.reverseRecOn with
  | nil => simp [specFormat, specOutput, specSkipper, GetDefaultOptions]
  | append_singleton l a ih =>
    obtain ⟨hf, ho, hs⟩ := ih
    cases a with
    | skipper f =>
      simp [List.foldl_append, OptionArg.toFunc, Skipper, specFormat, specOutput, specSkipper,
        List.filterMap_append] at hf ho hs ⊢
      exact ⟨hf, ho⟩
    | format f =>
      simp [List.foldl_append, OptionArg.toFunc, Format, specFormat, specOutput, specSkipper,
        List.filterMap_append] at hf ho hs ⊢
      exact ⟨ho, hs⟩
    | output w =>
      simp [List.foldl_append, OptionArg.toFunc, Output, specFormat, specOutput, specSkipper,
        List.filterMap_append] at hf ho hs ⊢
      exact ⟨hf, hs⟩

/-- C16: for every list of options, the resolved format is that of the last
`Format` option (Text when none), the resolved output that of the last
`Output` option (the standard error when none), the resolved skipper that of
the last `Skipper` option (skip nothing when none); an option for one field
leaves the other fields as they are. -/
theorem newOptions_resolution (t : Bool) (l : List OptionArg) :
    (newOptions t (l.map OptionArg.toFunc)).Format = specFormat l ∧
    (newOptions t (l.map OptionArg.toFunc)).Output = specOutput l ∧
    (newOptions t (l.map OptionArg.toFunc)).Skipper = specSkipper l ∧
    (∀ (o : Options) (f : FormatType),
      (Format f o).Format = f ∧ (Format f o).Output = o.Output
        ∧ (Format f o).Skipper = o.Skipper ∧ (Format f o).isTerminal = o.isTerminal) ∧
    (∀ (o : Options) (w : Writer),
      (Output w o).Output = w ∧ (Output w o).Format = o.Format
        ∧ (Output w o).Skipper = o.Skipper ∧ (Output w o).isTerminal = o.isTerminal) ∧
    (∀ (o : Options) (f : SkipperFunc),
      (Skipper f o).Skipper = f ∧ (Skipper f o).Format = o.Format
        ∧ (Skipper f o).Output = o.Output ∧ (Skipper f o).isTerminal = o.isTerminal) := by
  obtain ⟨hf, ho, hs⟩ := resolved_fields l
  refine ⟨?_, ?_, ?_, ?_, ?_, ?_⟩
  · simpa [newOptions] using hf
  · simpa [newOptions] using ho
  · simpa [newOptions] using hs
  · intro o f; simp [Format]
  · intro o w; simp [Output]
  · intro o f; simp [Skipper]

/-! ## The status that is logged -/

theorem classify_error_500 (e : GoError) (st : Int) (h : st ≥ 500) :
    classify (some e) st = (e.msg, colorRed) := by
  have hd : decide (st ≥ 500) = true := decide_eq_true h
  simp [classify, hd, fmtV]

theorem middleware_error_run (opts : Options) (cError : GoError → Context → Context)
    (next : HandlerFunc) (s : State) (e : GoError)
    (hskip : opts.Skipper s.c = false) (hn : (next s.c).1 = some e) :
    (middleware opts cError next s).2.calls
      = s.calls ++ [Event.next, Event.cError e, Event.write opts.Output
        (logLine opts (some e) (cError e (next s.c).2)
          (durationString ((cError e (next s.c).2).now - s.c.now)))] := by
  rw [middleware_not_skipped opts cError next s hskip]
  simp [hn]

/-- C17, as stated, fails for some errors. For an error with the empty message
and status 500 the text line has no `err=` and the JSON line no
`"error":""`; for the message `a"b` the JSON line does not contain
`"error":"a"b"`, since the quote is escaped. -/
theorem error_text_not_always_in_line :
    (¬ ∃ pre post : String,
      written Writer.Stderr
        (middleware ⟨DefaultSkipper, Writer.Stderr, FormatTypeText, false⟩ (cErrorStatus 500)
          (errorHandler "") ⟨⟨"DELETE", "/err", 200, 0⟩, [], []⟩).2.calls
        = pre ++ ("err=" ++ "") ++ post) ∧
    (¬ ∃ pre post : String,
      written Writer.Stderr
        (middleware ⟨DefaultSkipper, Writer.Stderr, FormatTypeJSON, false⟩ (cErrorStatus 500)
          (errorHandler "") ⟨⟨"DELETE", "/err", 200, 0⟩, [], []⟩).2.calls
        = pre ++ ("\"error\":\"" ++ "" ++ "\"") ++ post) ∧
    (¬ ∃ pre post : String,
      written Writer.Stderr
        (middleware ⟨DefaultSkipper, Writer.Stderr, FormatTypeJSON, false⟩ (cErrorStatus 500)
          (errorHandler "a\"b") ⟨⟨"DELETE", "/err", 200, 0⟩, [], []⟩).2.calls
        = pre ++ ("\"error\":\"" ++ "a\"b" ++ "\"") ++ post) := by
  refine ⟨?_, ?_, ?_⟩
  · rintro ⟨pre, post, h⟩
    have hc := containsAt_of_eq _ _ pre post h
    revert hc
    decide
  · rintro ⟨pre, post, h⟩
    have hc := containsAt_of_eq _ _ pre post h
    revert hc
    decide
  · rintro ⟨pre, post, h⟩
    have hc := containsAt_of_eq _ _ pre post h
    revert hc
    decide

/-- C17, amended: the status that is classified and logged is the status after
the handler has returned and `c.Error` has run. When the handler returns an
error `e` and `c.Error` leaves the status at `st`, the text line (not terminal)
begins with `<st> method=<method> path=<path> latency=` and the JSON line with
`{"status":<st>,`, for every error and every `st`. When moreover `st` is 500 or
more and the message of `e` is not empty, the text line contains `err=<e>` and
the JSON line contains `"error":` followed by the encoded message, which is
`"error":"<e>"` when the encoder leaves the characters of the message
unchanged. -/
theorem status_after_error_report (sk : SkipperFunc) (w : Writer) (t : Bool)
    (cError : GoError → Context → Context) (next : HandlerFunc) (s : State)
    (e : GoError) (st : Int)
    (hskip : sk s.c = false) (hn : (next s.c).1 = some e)
    (hst : (cError e (next s.c).2).Status = st) :
    (∃ post : String,
      (middleware ⟨sk, w, FormatTypeText, false⟩ cError next s).2.calls
        = s.calls ++ [Event.next, Event.cError e, Event.write w
          (fmtD st ++ " method=" ++ (cError e (next s.c).2).Method ++ " path="
            ++ (cError e (next s.c).2).Path ++ " latency=" ++ post)]) ∧
    (∃ post : String,
      (middleware ⟨sk, w, FormatTypeJSON, t⟩ cError next s).2.calls
        = s.calls ++ [Event.next, Event.cError e, Event.write w
          ("\x7b\"status\":" ++ fmtD st ++ "," ++ post)]) ∧
    (st ≥ 500 → e.msg ≠ "" → ∃ pre post : String,
      (middleware ⟨sk, w, FormatTypeText, false⟩ cError next s).2.calls
        = s.calls ++ [Event.next, Event.cError e, Event.write w
          (pre ++ ("err=" ++ e.msg) ++ post)]) ∧
    (st ≥ 500 → e.msg ≠ "" → ∃ pre post : String,
      (middleware ⟨sk, w, FormatTypeJSON, t⟩ cError next s).2.calls
        = s.calls ++ [Event.next, Event.cError e, Event.write w
          (pre ++ ("\"error\":" ++ jsonString e.msg) ++ post)]) ∧
    (st ≥ 500 → e.msg ≠ "" → (∀ c ∈ e.msg.data, jsonEscapeChar c = [c]) →
      ∃ pre post : String,
        (middleware ⟨sk, w, FormatTypeJSON, t⟩ cError next s).2.calls
          = s.calls ++ [Event.next, Event.cError e, Event.write w
            (pre ++ ("\"error\":\"" ++ e.msg ++ "\"") ++ post)]) := by
  have hj : FormatTypeJSON ≠ FormatTypeText := by decide
  have htext := middleware_error_run ⟨sk, w, FormatTypeText, false⟩ cError next s e hskip hn
  have hjson := middleware_error_run ⟨sk, w, FormatTypeJSON, t⟩ cError next s e hskip hn
  have hjsonErr : st ≥ 500 → e.msg ≠ "" → ∃ pre post : String,
      (middleware ⟨sk, w, FormatTypeJSON, t⟩ cError next s).2.calls
        = s.calls ++ [Event.next, Event.cError e, Event.write w
          (pre ++ ("\"error\":" ++ jsonString e.msg) ++ post)] := by
    intro h500 hne
    have hcl := classify_error_500 e st h500
    refine ⟨"\x7b\"status\":" ++ fmtD st ++ ",\"method\":"
        ++ jsonString (cError e (next s.c).2).Method ++ ",\"path\":"
        ++ jsonString (cError e (next s.c).2).Path ++ ",\"latency\":"
        ++ jsonString (durationString ((cError e (next s.c).2).now - s.c.now)) ++ ",",
      "\x7d\n", ?_⟩
    rw [hjson]
    congr 5
    simp only [logLine, hst, hcl, hj, formatJSON, hne, ne_eq, not_false_eq_true, if_true,
      if_false]
    apply String.ext
    simp only [String.data_append, List.append_assoc]
    rfl
  refine ⟨?_, ?_, ?_, hjsonErr, ?_⟩
  · refine ⟨durationString ((cError e (next s.c).2).now - s.c.now) ++ " "
      ++ (classify (some e) st).1
      ++ (if (classify (some e) st).1 = "" then "" else " err=" ++ (classify (some e) st).1)
      ++ "\n", ?_⟩
    rw [htext]
    congr 5
    by_cases he : (classify (some e) st).1 = ""
    · simp only [logLine, hst, formatText, he, ne_eq, not_true_eq_false, if_true,
        Bool.false_eq_true, if_false]
      apply String.ext
      simp only [String.data_append, List.append_assoc]
      rfl
    · simp only [logLine, hst, formatText, he, ne_eq, not_false_eq_true, if_true,
        Bool.false_eq_true, if_false]
      apply String.ext
      simp only [String.data_append, List.append_assoc]
  · refine ⟨"\"method\":" ++ jsonString (cError e (next s.c).2).Method ++ ",\"path\":"
      ++ jsonString (cError e (next s.c).2).Path ++ ",\"latency\":"
      ++ jsonString (durationString ((cError e (next s.c).2).now - s.c.now))
      ++ (if (classify (some e) st).1 = "" then ""
        else ",\"error\":" ++ jsonString (classify (some e) st).1)
      ++ "\x7d\n", ?_⟩
    rw [hjson]
    congr 5
    by_cases he : (classify (some e) st).1 = ""
    · simp only [logLine, hst, hj, formatJSON, he, ne_eq, not_true_eq_false, if_true,
        if_false]
      apply String.ext
      simp only [String.data_append, List.append_assoc]
      rfl
    · simp only [logLine, hst, hj, formatJSON, he, ne_eq, not_false_eq_true, if_true,
        if_false]
      apply String.ext
      simp only [String.data_append, List.append_assoc]
      rfl
  · intro h500 hne
    have hcl := classify_error_500 e st h500
    refine ⟨fmtD st ++ " method=" ++ (cError e (next s.c).2).Method ++ " path="
        ++ (cError e (next s.c).2).Path ++ " latency="
        ++ durationString ((cError e (next s.c).2).now - s.c.now) ++ " " ++ e.msg ++ " ",
      "\n", ?_⟩
    rw [htext]
    congr 5
    simp only [logLine, hst, hcl, formatText, hne, ne_eq, not_false_eq_true, if_true,
      Bool.false_eq_true, if_false]
    apply String.ext
    simp only [String.data_append, List.append_assoc]
    rfl
  · intro h500 hne hsafe
    obtain ⟨pre, post, h⟩ := hjsonErr h500 hne
    refine ⟨pre, post, ?_⟩
    rw [h, jsonString_unchanged _ hsafe]
    congr 5

theorem status_after_error_report_witness :
    DefaultSkipper ⟨"DELETE", "/err", 200, 0⟩ = false ∧
    (errorHandler "something went wrong" ⟨"DELETE", "/err", 200, 0⟩).1
      = some ⟨"something went wrong"⟩ ∧
    (cErrorStatus 500 ⟨"something went wrong"⟩
      (errorHandler "something went wrong" ⟨"DELETE", "/err", 200, 0⟩).2).Status = 500 ∧
    (∃ post : String,
      (middleware ⟨DefaultSkipper, Writer.Stderr, FormatTypeText, false⟩ (cErrorStatus 500)
          (errorHandler "something went wrong") ⟨⟨"DELETE", "/err", 200, 0⟩, [], []⟩).2.calls
        = [] ++ [Event.next, Event.cError ⟨"something went wrong"⟩,
          Event.write Writer.Stderr
            (fmtD 500 ++ " method="
              ++ (cErrorStatus 500 ⟨"something went wrong"⟩
                (errorHandler "something went wrong" ⟨"DELETE", "/err", 200, 0⟩).2).Method
              ++ " path="
              ++ (cErrorStatus 500 ⟨"something went wrong"⟩
                (errorHandler "something went wrong" ⟨"DELETE", "/err", 200, 0⟩).2).Path
              ++ " latency=" ++ post)]) ∧
    (∃ pre post : String,
      (middleware ⟨DefaultSkipper, Writer.Stderr, FormatTypeText, false⟩ (cErrorStatus 500)
          (errorHandler "something went wrong") ⟨⟨"DELETE", "/err", 200, 0⟩, [], []⟩).2.calls
        = [] ++ [Event.next, Event.cError ⟨"something went wrong"⟩,
          Event.write Writer.Stderr (pre ++ ("err=" ++ "something went wrong") ++ post)]) ∧
    (∃ pre post : String,
      (middleware ⟨DefaultSkipper, Writer.Stderr, FormatTypeJSON, true⟩ (cErrorStatus 500)
          (errorHandler "something went wrong") ⟨⟨"DELETE", "/err", 200, 0⟩, [], []⟩).2.calls
        = [] ++ [Event.next, Event.cError ⟨"something went wrong"⟩,
          Event.write Writer.Stderr
            (pre ++ ("\"error\":\"" ++ "something went wrong" ++ "\"") ++ post)]) :=
  ⟨by decide, by decide, by decide,
    (status_after_error_report DefaultSkipper Writer.Stderr true (cErrorStatus 500)
      (errorHandler "something went wrong") ⟨⟨"DELETE", "/err", 200, 0⟩, [], []⟩
      ⟨"something went wrong"⟩ 500 (by decide) (by decide) (by decide)).1,
    (status_after_error_report DefaultSkipper Writer.Stderr true (cErrorStatus 500)
      (errorHandler "something went wrong") ⟨⟨"DELETE", "/err", 200, 0⟩, [], []⟩
      ⟨"something went wrong"⟩ 500 (by decide) (by decide) (by decide)).2.2.1
      (by decide) (by decide),
    (status_after_error_report DefaultSkipper Writer.Stderr true (cErrorStatus 500)
      (errorHandler "something went wrong") ⟨⟨"DELETE", "/err", 200, 0⟩, [], []⟩
      ⟨"something went wrong"⟩ 500 (by decide) (by decide) (by decide)).2.2.2.2
      (by decide) (by decide) (by decide)⟩

/-! ## The buffer pool -/

/-- What a request returns, the context it leaves and the calls it makes do
not depend on the pool. -/
theorem middleware_pool_irrelevant (opts : Options) (cError : GoError → Context → Context)
    (next : HandlerFunc) (c : Context) (calls : List Event) (p1 p2 : List String) :
    (middleware opts cError next ⟨c, p1, calls⟩).1
      = (middleware opts cError next ⟨c, p2, calls⟩).1 ∧
    (middleware opts cError next ⟨c, p1, calls⟩).2.c
      = (middleware opts cError next ⟨c, p2, calls⟩).2.c ∧
    (middleware opts cError next ⟨c, p1, calls⟩).2.calls
      = (middleware opts cError next ⟨c, p2, calls⟩).2.calls := by
  cases hskip : opts.Skipper c
  · rw [middleware_not_skipped opts cError next ⟨c, p1, calls⟩ hskip,
      middleware_not_skipped opts cError next ⟨c, p2, calls⟩ hskip]
    exact ⟨rfl, rfl, rfl⟩
  · rw [middleware_skipped opts cError next ⟨c, p1, calls⟩ hskip,
      middleware_skipped opts cError next ⟨c, p2, calls⟩ hskip]
    exact ⟨rfl, rfl, rfl⟩

theorem serve_eq_map (opts : Options) (cError : GoError → Context → Context)
    (reqs : List (Context × HandlerFunc)) : ∀ pool : List String,
    serve opts cError reqs pool
      = reqs.map (fun q => (middleware opts cError q.2 ⟨q.1, [], []⟩).2.calls) := by
  induction reqs with
  | nil => intro pool; rfl
  | cons q rest ih =>
    intro pool
    simp only [serve, List.map_cons, ih]
    rw [(middleware_pool_irrelevant opts cError q.2 q.1 [] pool []).2.2]

/-- C19: the bytes written for a request do not depend on the buffers in the
pool, whatever they hold; in a sequence of requests through one middleware
each request makes the calls, with the bytes, that a fresh middleware makes
for that request alone; and on a request that is not skipped the buffer goes
back to the pool. -/
theorem buffer_reuse_no_leak (opts : Options) (cError : GoError → Context → Context) :
    (∀ (next : HandlerFunc) (c : Context) (calls : List Event) (p1 p2 : List String),
      (middleware opts cError next ⟨c, p1, calls⟩).2.calls
        = (middleware opts cError next ⟨c, p2, calls⟩).2.calls) ∧
    (∀ (reqs : List (Context × HandlerFunc)) (pool : List String),
      serve opts cError reqs pool
        = reqs.map (fun q => (middleware opts cError q.2 ⟨q.1, [], []⟩).2.calls)) ∧
    (∀ (next : HandlerFunc) (s : State),
      (middleware opts cError next s).2.pool
        = if opts.Skipper s.c then s.pool
          else logLine opts (next s.c).1 (middleware opts cError next s).2.c
              (durationString ((middleware opts cError next s).2.c.now - s.c.now))
            :: s.pool.tail) := by
  refine ⟨?_, ?_, ?_⟩
  · intro next c calls p1 p2
    exact (middleware_pool_irrelevant opts cError next c calls p1 p2).2.2
  · intro reqs pool
    exact serve_eq_map opts cError reqs pool
  · intro next s
    cases hskip : opts.Skipper s.c
    · rw [middleware_not_skipped opts cError next s hskip]
      simp
    · rw [middleware_skipped opts cError next s hskip]
      simp

/-! ## Format selection -/

/-- C20: every format other than `text` gives what `json` gives: the whole run
of the middleware is the same, the line is the JSON line, whatever the
terminal flag; the format `text` gives the text line. -/
theorem format_falls_through_to_json (sk : SkipperFunc) (w : Writer) (f : FormatType)
    (t1 t2 : Bool) (hf : f ≠ FormatTypeText) :
    (∀ (cError : GoError → Context → Context) (next : HandlerFunc) (s : State),
      middleware ⟨sk, w, f, t1⟩ cError next s
        = middleware ⟨sk, w, FormatTypeJSON, t2⟩ cError next s) ∧
    (∀ (err : Option GoError) (c : Context) (latency : String),
      logLine ⟨sk, w, f, t1⟩ err c latency
        = formatJSON c.Status c.Method c.Path latency (classify err c.Status).1) ∧
    (∀ (err : Option GoError) (c : Context) (latency : String),
      logLine ⟨sk, w, FormatTypeText, t1⟩ err c latency
        = formatText t1 (classify err c.Status).2 c.Status c.Method c.Path latency
          (classify err c.Status).1) := by
  have hj : FormatTypeJSON ≠ FormatTypeText := by decide
  have hl : ∀ (err : Option GoError) (c : Context) (latency : String),
      logLine ⟨sk, w, f, t1⟩ err c latency
        = logLine ⟨sk, w, FormatTypeJSON, t2⟩ err c latency := by
    intro err c latency
    simp [logLine, hf, hj]
  refine ⟨?_, ?_, ?_⟩
  · intro cError next s
    simp only [middleware, hl]
  · intro err c latency
    simp [logLine, hf]
  · intro err c latency
    simp [logLine]

theorem format_falls_through_to_json_witness :
    ("xml" : FormatType) ≠ FormatTypeText ∧
    ((∀ (cError : GoError → Context → Context) (next : HandlerFunc) (s : State),
      middleware ⟨DefaultSkipper, Writer.Stderr, "xml", true⟩ cError next s
        = middleware ⟨DefaultSkipper, Writer.Stderr, FormatTypeJSON, false⟩ cError next s) ∧
    (∀ (err : Option GoError) (c : Context) (latency : String),
      logLine ⟨DefaultSkipper, Writer.Stderr, "xml", true⟩ err c latency
        = formatJSON c.Status c.Method c.Path latency (classify err c.Status).1) ∧
    (∀ (err : Option GoError) (c : Context) (latency : String),
      logLine ⟨DefaultSkipper, Writer.Stderr, FormatTypeText, true⟩ err c latency
        = formatText true (classify err c.Status).2 c.Status c.Method c.Path latency
          (classify err c.Status).1)) :=
  ⟨by decide, format_falls_through_to_json DefaultSkipper Writer.Stderr "xml" true false
    (by decide)⟩

example : specFormat [OptionArg.format "json", OptionArg.output (Writer.Buffer 1),
    OptionArg.format "text"] = "text" := by decide
example : specOutput [OptionArg.format "json"] = Writer.Stderr := by decide
example : (middleware ⟨DefaultSkipper, Writer.Stderr, "", true⟩ (cErrorStatus 500)
    (statusHandler 200 1500) ⟨⟨"GET", "/ok", 0, 0⟩, ["stale"], []⟩).2.calls
    = [Event.next, Event.write Writer.Stderr
      "\x7b\"status\":200,\"method\":\"GET\",\"path\":\"/ok\",\"latency\":\"1.5µs\"\x7d\n"] := by
  decide
example : parseObject "\x7b\"a\":-12,\"b<\":\"x\\ty\\u003c\"\x7d\n"
    = some [("a", JValue.num (-12)), ("b<", JValue.str "x\ty<")] := by decide
example : parseObject (formatJSON 500 "GET" "/x\",\"error\":\"y" "1ms" "")
    = some [("status", JValue.num 500), ("method", JValue.str "GET"),
      ("path", JValue.str "/x\",\"error\":\"y"), ("latency", JValue.str "1ms")] := by decide
example : classify (some ⟨"boom"⟩) 500 = ("boom", 31) := by decide
example : classify (some ⟨"boom"⟩) 404 = ("", 33) := by decide
example : formatText false 36 200 "GET" "/ok" "1ms" "" = "200 method=GET path=/ok latency=1ms \n" := by decide
example : durationString 0 = "0s" := by decide
example : durationString 1 = "1ns" := by decide
example : durationString 1500 = "1.5µs" := by decide
example : durationString 1200000 = "1.2ms" := by decide
example : durationString 1000000000 = "1s" := by decide
example : durationString (-61000000000) = "-1m1s" := by decide
example : durationString 3600500000000 = "1h0m0.5s" := by decide
example : durationString 9223372036854775807 = "2562047h47m16.854775807s" := by decide
example : formatJSON 200 "GET" "/ok" "1ms" "" = "\x7b\"status\":200,\"method\":\"GET\",\"path\":\"/ok\",\"latency\":\"1ms\"\x7d\n" := by decide

end Logger
